import Mathlib

/-!
Verification of the Linear-Coding-Agent-Framework caching and progress
engine.  The definitions below are a shallow embedding of
`linear_cache.py` (the tiered cache, rate tracker and cached client) and
`linear_enhanced.py` (progress, milestone and health derivation).

Conventions of the embedding:
* Python dicts with a fixed key set become structures; `dict.get(k)` on a
  possibly-missing key becomes an `Option` field.
* `time.time()` / `datetime.now()` become an explicit `now : ℚ` argument.
* The permanent issue cache and the session cache (Python dicts) become
  association lists keyed by `String`; insertion-order bookkeeping is
  irrelevant because all access is through lookup, set and delete.
* Python floats are modelled as exact rationals; `round(x, n)` is the Python
  round-half-to-even, modelled by `pyRound`.
-/

/-- Lookup in an association list keyed by strings (Python dict read). -/
def alookup {α : Type} (k : String) : List (String × α) → Option α
  | [] => none
  | p :: rest => if p.1 = k then some p.2 else alookup k rest

/-- Overwriting insertion into an association list (Python dict write). -/
def aset {α : Type} (k : String) (v : α) (l : List (String × α)) : List (String × α) :=
  (k, v) :: l.filter (fun p => decide (p.1 ≠ k))

/-- Key removal from an association list (Python `del d[k]`). -/
def adel {α : Type} (k : String) (l : List (String × α)) : List (String × α) :=
  l.filter (fun p => decide (p.1 ≠ k))

/-- A work item as passed around the code: a Python dict whose keys may be
absent (`issue.get(...)` yields `None` on a missing key). The `state` field
models `issue.get('state', \x7b\x7d).get('name')`. -/
structure Issue where
  id : Option String
  title : Option String
  description : Option String
  priority : Option Int
  state : Option String
deriving DecidableEq, Repr

/-- An entry of the permanent cache tier, as built by
`LinearCache.cache_issue`. -/
structure CachedIssue where
  id : String
  title : Option String
  description : Option String
  priority : Option Int
  cached_at : ℚ
deriving DecidableEq, Repr

/-- An entry of the session cache tier, as built by
`LinearCache.cache_session_issues`. -/
structure SessionEntry where
  issues : List Issue
  timestamp : ℚ
deriving DecidableEq, Repr

/-- The in-memory state of a `LinearCache` object: the permanent tier
(`self.permanent_cache["issues"]`), the session tier (`self.session_cache`),
and the rate-tracking fields. -/
structure CacheState where
  permanent_issues : List (String × CachedIssue)
  session_cache : List (String × SessionEntry)
  api_call_count : Nat
  api_call_timestamps : List ℚ
deriving DecidableEq, Repr

/-- A freshly constructed cache with no on-disk file present
(`LinearCache.__init__` followed by `load_cache` on a missing file). -/
def initCache : CacheState :=
  { permanent_issues := [], session_cache := [], api_call_count := 0,
    api_call_timestamps := [] }

/-- `LinearCache.track_api_call`: append the current timestamp, drop
timestamps older than one hour (`t > now - 3600` is kept), and return the
resulting window length. -/
def track_api_call (now : ℚ) (s : CacheState) : Nat × CacheState :=
  let ts := (s.api_call_timestamps ++ [now]).filter (fun t => decide (now - 3600 < t))
  (ts.length,
   { s with api_call_count := s.api_call_count + 1, api_call_timestamps := ts })

/-- `LinearCache.get_cached_issue`: read of the permanent tier. -/
def get_cached_issue (s : CacheState) (issue_id : String) : Option CachedIssue :=
  alookup issue_id s.permanent_issues

/-- The permanent-tier entry `cache_issue` builds from input data: the
stored `id` is the key argument, the remaining fields are read with
`.get(...)` from the input dict, and `cached_at` is the current time. -/
def mkCachedIssue (now : ℚ) (issue_id : String) (d : Issue) : CachedIssue :=
  { id := issue_id, title := d.title, description := d.description,
    priority := d.priority, cached_at := now }

/-- `LinearCache.cache_issue`: write-once insertion into the permanent
tier — a no-op when the id is already present. -/
def cache_issue (now : ℚ) (issue_id : String) (d : Issue) (s : CacheState) : CacheState :=
  if (alookup issue_id s.permanent_issues).isSome then s
  else { s with
          permanent_issues := (issue_id, mkCachedIssue now issue_id d) :: s.permanent_issues }

/-- The session-cache key `f"issues_{project_id}"`. -/
def sessionKey (project_id : String) : String := "issues_" ++ project_id

/-- `LinearCache.get_session_issues`: return the cached list when an entry
exists and is younger than 300 seconds, `none` otherwise.  The entry dict
is always truthy, so the Python `if cached_data:` test is just presence. -/
def get_session_issues (now : ℚ) (s : CacheState) (project_id : String) :
    Option (List Issue) :=
  match alookup (sessionKey project_id) s.session_cache with
  | some e => if now - e.timestamp < 300 then some e.issues else none
  | none => none

/-- One step of the trickle-population loop in `cache_session_issues`:
`if issue.get('id'): self.cache_issue(issue['id'], issue)`.  A missing id
and the empty string are both falsy in Python, so both are skipped. -/
def cacheIssueStep (now : ℚ) (st : CacheState) (i : Issue) : CacheState :=
  match i.id with
  | some iid => if iid ≠ "" then cache_issue now iid i st else st
  | none => st

/-- `LinearCache.cache_session_issues`: overwrite the session entry for the
project, then trickle every item with a truthy id into the permanent tier. -/
def cache_session_issues (now : ℚ) (project_id : String) (issues : List Issue)
    (s : CacheState) : CacheState :=
  let s1 := { s with
              session_cache := aset (sessionKey project_id)
                { issues := issues, timestamp := now } s.session_cache }
  issues.foldl (cacheIssueStep now) s1

/-- `LinearCache.invalidate_session_cache`: delete the session entry for the
project if present. -/
def invalidate_session_cache (project_id : String) (s : CacheState) : CacheState :=
  { s with session_cache := adel (sessionKey project_id) s.session_cache }

/-- The dict returned by `LinearCache.get_api_stats`. -/
structure ApiStats where
  total_calls_session : Nat
  calls_last_hour : Nat
  rate_limit : Nat
  percentage_used : ℚ
  cached_issues : Nat
deriving DecidableEq, Repr

/-- `LinearCache.get_api_stats`: reads the rate window as stored, without
pruning it against the current time. -/
def get_api_stats (s : CacheState) : ApiStats :=
  let calls_last_hour := s.api_call_timestamps.length
  { total_calls_session := s.api_call_count,
    calls_last_hour := calls_last_hour,
    rate_limit := 1500,
    percentage_used := (calls_last_hour : ℚ) / 1500 * 100,
    cached_issues := s.permanent_issues.length }

/-- `CachedLinearClient.update_issue`: the body only records the API call;
the `invalidate_session_cache` call in the source is commented out, so the
session tier is left untouched. -/
def update_issue (now : ℚ) (s : CacheState) : CacheState :=
  (track_api_call now s).2

/-- the Python `round` on rationals: round half to even (bankers rounding)
to the nearest integer. -/
def rhe (q : ℚ) : Int :=
  let f := ⌊q⌋
  if q - f < 1 / 2 then f
  else if 1 / 2 < q - f then f + 1
  else if f % 2 = 0 then f else f + 1

/-- the Python `round(q, d)`. -/
def pyRound (d : Nat) (q : ℚ) : ℚ := (rhe (q * 10 ^ d) : ℚ) / 10 ^ d

/-- One entry of the `MILESTONES` class constant of
`EnhancedLinearIntegration`. -/
structure Milestone where
  name : String
  description : String
  target_percentage : ℚ
deriving DecidableEq, Repr

/-- `EnhancedLinearIntegration.MILESTONES`, in dict insertion order
(Python preserves it during iteration). -/
def MILESTONES : List (String × Milestone) :=
  [("setup", { name := "Project Setup",
               description := "Initial project scaffolding and infrastructure",
               target_percentage := 10 }),
   ("core", { name := "Core Features",
              description := "Essential functionality and critical features",
              target_percentage := 40 }),
   ("features", { name := "Feature Implementation",
                  description := "Secondary features and enhancements",
                  target_percentage := 75 }),
   ("polish", { name := "Polish & Refinement",
                description := "UI polish, performance optimization, bug fixes",
                target_percentage := 95 }),
   ("complete", { name := "Project Complete",
                  description := "All features implemented and tested",
                  target_percentage := 100 })]

/-- The dict returned by `determine_current_milestone`. -/
structure MilestoneResult where
  key : String
  name : String
  description : String
  target : ℚ
deriving DecidableEq, Repr

/-- The fallback returned after the milestone loop exhausts all entries:
built from `MILESTONES["complete"]` with target `100`. -/
def completeFallback : MilestoneResult :=
  { key := "complete", name := "Project Complete",
    description := "All features implemented and tested", target := 100 }

/-- The `for key, milestone in self.MILESTONES.items():` loop of
`determine_current_milestone`: first entry whose target strictly exceeds
the percentage wins. -/
def selectMilestone (p : ℚ) : List (String × Milestone) → MilestoneResult
  | [] => completeFallback
  | (k, m) :: rest =>
      if p < m.target_percentage then
        { key := k, name := m.name, description := m.description,
          target := m.target_percentage }
      else selectMilestone p rest

/-- `EnhancedLinearIntegration.determine_current_milestone`. -/
def determine_current_milestone (progress_percentage : ℚ) : MilestoneResult :=
  selectMilestone progress_percentage MILESTONES

/-- `EnhancedLinearIntegration.determine_health_status`: ordered rules,
first match wins.  The float literals `0.8` and `0.3` are the rationals
`4/5` and `3/10`. -/
def determine_health_status (progress_percentage velocity : ℚ)
    (errors_count : Int) : String :=
  if 4 / 5 < velocity ∧ errors_count < 5 ∧ 20 < progress_percentage then
    "on_track"
  else if 3 / 10 < velocity ∧ errors_count < 10 then
    "at_risk"
  else
    "off_track"

/-- A session summary dict as consumed by `update_session_history`
(all keys read with `.get(...)`, hence optional). -/
structure SessionSummary where
  health : Option String
  progress_percentage : Option ℚ
  velocity : Option ℚ
  issues_completed : Option Int
deriving DecidableEq, Repr

/-- An entry appended to `project_data["health_history"]`. -/
structure HealthRecord where
  timestamp : ℚ
  health : String
  progress : ℚ
deriving DecidableEq, Repr

/-- An entry appended to `project_data["velocity_history"]`. -/
structure VelocityRecord where
  timestamp : ℚ
  velocity : ℚ
  issues_completed : Int
deriving DecidableEq, Repr

/-- The `.linear_project.json` dict (`self.project_data`).  Every key may
be absent — the code reads them with `.get(key, default)` or guards with
`key not in project_data`. -/
structure ProjectData where
  initialized : Option Bool
  created_at : Option ℚ
  project_id : Option String
  project_name : Option String
  total_issues : Option Int
  issues_by_priority : Option (List (String × Int))
  milestones_created : Option Bool
  session_count : Option Int
  milestones : Option (List (String × Milestone))
  session_history : Option (List SessionSummary)
  health_history : Option (List HealthRecord)
  velocity_history : Option (List VelocityRecord)
deriving DecidableEq, Repr

/-- `EnhancedLinearIntegration.create_initializer_summary`: the dict it
returns, with `session_count` set to `0` and empty history lists (and no
`session_history` key at all). -/
def create_initializer_summary (now : ℚ) (project_id project_name : String)
    (total_issues : Int) (issues_by_priority : List (String × Int))
    (milestones_created : Bool) : ProjectData :=
  { initialized := some true,
    created_at := some now,
    project_id := some project_id,
    project_name := some project_name,
    total_issues := some total_issues,
    issues_by_priority := some issues_by_priority,
    milestones_created := some milestones_created,
    session_count := some 0,
    milestones := some MILESTONES,
    session_history := none,
    health_history := some [],
    velocity_history := some [] }

/-- `EnhancedLinearIntegration.update_session_history`: append the summary
to `session_history` (created empty when missing), recompute
`session_count` as the new history length, and append derived records to
the health and velocity histories. -/
def update_session_history (now : ℚ) (summary : SessionSummary)
    (pd : ProjectData) : ProjectData :=
  let hist := pd.session_history.getD [] ++ [summary]
  let hh := pd.health_history.getD [] ++
    [{ timestamp := now, health := summary.health.getD "unknown",
       progress := summary.progress_percentage.getD 0 }]
  let vh := pd.velocity_history.getD [] ++
    [{ timestamp := now, velocity := summary.velocity.getD 0,
       issues_completed := summary.issues_completed.getD 0 }]
  { pd with session_history := some hist,
            session_count := some (hist.length : Int),
            health_history := some hh,
            velocity_history := some vh }

/-- The test `i.get('state', \x7b\x7d).get('name') == 'Done'`. -/
def isDone (i : Issue) : Bool := i.state == some "Done"

/-- The test `i.get('state', \x7b\x7d).get('name') == 'In Progress'`. -/
def isInProgress (i : Issue) : Bool := i.state == some "In Progress"

/-- The dict returned by `calculate_progress`; `estimated_completion` is
`none` for the `"Unknown"` sentinel and `some d` for the string
`f"\x7bint(days)\x7d days"`. -/
structure ProgressReport where
  total_issues : Int
  completed : Int
  in_progress : Int
  todo : Int
  progress_percentage : ℚ
  velocity : ℚ
  estimated_completion : Option Int
deriving DecidableEq, Repr

/-- `EnhancedLinearIntegration.calculate_progress`.  `sessions` is
`project_data.get('session_count', 1)`; velocity is `completed / sessions`
when `sessions > 0` and `0` otherwise; the percentage and velocity are
rounded with the Python `round` to 1 and 2 digits. -/
def calculate_progress (pd : ProjectData) (issues : List Issue) : ProgressReport :=
  let total : Int := (issues.length : Int)
  let completed : Int := ((issues.countP isDone : Nat) : Int)
  let in_progress : Int := ((issues.countP isInProgress : Nat) : Int)
  let todo : Int := total - completed - in_progress
  let progress_percentage : ℚ :=
    if 0 < total then ((completed : ℚ) + 1 / 4 * (in_progress : ℚ)) / (total : ℚ) * 100
    else 0
  let sessions : Int := pd.session_count.getD 1
  let velocity : ℚ := if 0 < sessions then (completed : ℚ) / (sessions : ℚ) else 0
  let remaining : Int := todo + in_progress
  let estimated_sessions : ℚ := if 0 < velocity then (remaining : ℚ) / velocity else 0
  let estimated_completion : Option Int :=
    if 0 < velocity then some ⌊estimated_sessions * (1 / 2)⌋ else none
  { total_issues := total, completed := completed, in_progress := in_progress,
    todo := todo,
    progress_percentage := pyRound 1 progress_percentage,
    velocity := pyRound 2 velocity,
    estimated_completion := estimated_completion }

/-! Sample data shared by the concrete witnesses below. -/

/-- Sample issue data, first write. -/
def issueA : Issue :=
  { id := some "X", title := some "first title", description := some "first body",
    priority := some 1, state := none }

/-- Sample issue data, second (conflicting) write. -/
def issueB : Issue :=
  { id := some "X", title := some "second title", description := some "second body",
    priority := some 2, state := none }

/-- Sample issue whose id key holds the empty string (falsy in Python). -/
def emptyIdIssue : Issue :=
  { id := some "", title := some "t", description := none, priority := none,
    state := none }

/-- Sample completed issue. -/
def doneIssue : Issue :=
  { id := some "a", title := none, description := none, priority := none,
    state := some "Done" }

/-- Sample in-flight issue. -/
def inProgressIssue : Issue :=
  { id := some "b", title := none, description := none, priority := none,
    state := some "In Progress" }

/-- Sample untouched issue. -/
def todoIssue : Issue :=
  { id := some "c", title := none, description := none, priority := none,
    state := some "Todo" }

/-! Association-list lemmas. -/

theorem alookup_filter_ne {α : Type} {k j : String} (h : k ≠ j)
    (l : List (String × α)) :
    alookup j (l.filter (fun p => decide (p.1 ≠ k))) = alookup j l := by
  induction l with
  | nil => rfl
  | cons p rest ih =>
      simp only [decide_not] at ih ⊢
      by_cases hp : p.1 = k
      · have hj : p.1 ≠ j := by rw [hp]; exact h
        simp [List.filter_cons, hp, alookup, hj, h, ih]
      · by_cases hj : p.1 = j
        · simp [List.filter_cons, hp, alookup, hj, Ne.symm h]
        · simp [List.filter_cons, hp, alookup, hj, h, ih]

theorem alookup_aset_self {α : Type} (k : String) (v : α) (l : List (String × α)) :
    alookup k (aset k v l) = some v := by
  simp [alookup, aset]

theorem alookup_aset_ne {α : Type} {k j : String} (v : α) (l : List (String × α))
    (h : k ≠ j) : alookup j (aset k v l) = alookup j l := by
  simp only [aset, alookup, h, if_false]
  exact alookup_filter_ne h l

theorem alookup_adel_self {α : Type} (k : String) (l : List (String × α)) :
    alookup k (adel k l) = none := by
  induction l with
  | nil => rfl
  | cons p rest ih =>
      by_cases hk : p.1 = k
      · simpa [adel, List.filter_cons, hk] using ih
      · simpa [adel, alookup, List.filter_cons, hk] using ih

/-! Lemmas about `cache_issue` and the trickle-population fold of
`cache_session_issues`. -/

theorem cache_issue_absent {s : CacheState} {issue_id : String} (now : ℚ) (d : Issue)
    (h : alookup issue_id s.permanent_issues = none) :
    cache_issue now issue_id d s =
      { s with permanent_issues :=
          (issue_id, mkCachedIssue now issue_id d) :: s.permanent_issues } := by
  unfold cache_issue
  rw [h]
  rfl

theorem cache_issue_present {s : CacheState} {issue_id : String} (now : ℚ) (d : Issue)
    (h : (alookup issue_id s.permanent_issues).isSome) :
    cache_issue now issue_id d s = s := by
  unfold cache_issue
  rw [if_pos h]

theorem cache_issue_session (now : ℚ) (issue_id : String) (d : Issue) (s : CacheState) :
    (cache_issue now issue_id d s).session_cache = s.session_cache := by
  unfold cache_issue
  split <;> rfl

theorem cacheIssueStep_session (now : ℚ) (s : CacheState) (i : Issue) :
    (cacheIssueStep now s i).session_cache = s.session_cache := by
  unfold cacheIssueStep
  cases i.id with
  | none => rfl
  | some iid =>
      by_cases h : iid = "" <;> simp [h, cache_issue_session]

theorem trickle_session (now : ℚ) (issues : List Issue) (s : CacheState) :
    (issues.foldl (cacheIssueStep now) s).session_cache = s.session_cache := by
  induction issues generalizing s with
  | nil => rfl
  | cons i rest ih => simp [List.foldl_cons, ih, cacheIssueStep_session]

theorem cache_session_issues_session (now : ℚ) (project_id : String)
    (issues : List Issue) (s : CacheState) :
    (cache_session_issues now project_id issues s).session_cache =
      aset (sessionKey project_id) { issues := issues, timestamp := now }
        s.session_cache := by
  unfold cache_session_issues
  rw [trickle_session]

theorem get_session_issues_eq (now : ℚ) (s : CacheState) (pid : String) :
    get_session_issues now s pid =
      match alookup (sessionKey pid) s.session_cache with
      | some e => if now - e.timestamp < 300 then some e.issues else none
      | none => none := rfl

/-- C1: the permanent tier is write-once.  Starting from a state where `id`
is absent from the permanent tier, caching data `A` and then different data
`B` under the same id leaves the state exactly as after the first write, and
`get_cached_issue` returns the entry built from `A`. -/
theorem permanent_write_once (s : CacheState) (issue_id : String) (A B : Issue)
    (tA tB : ℚ) (hAB : A ≠ B)
    (hfree : alookup issue_id s.permanent_issues = none) :
    get_cached_issue (cache_issue tB issue_id B (cache_issue tA issue_id A s)) issue_id
        = some (mkCachedIssue tA issue_id A)
    ∧ cache_issue tB issue_id B (cache_issue tA issue_id A s)
        = cache_issue tA issue_id A s := by
  have h1 := cache_issue_absent (s := s) tA A hfree
  have h2 : alookup issue_id (cache_issue tA issue_id A s).permanent_issues =
      some (mkCachedIssue tA issue_id A) := by
    rw [h1]
    simp [alookup]
  have h3 : cache_issue tB issue_id B (cache_issue tA issue_id A s) =
      cache_issue tA issue_id A s :=
    cache_issue_present tB B (by rw [h2]; rfl)
  refine ⟨?_, h3⟩
  rw [get_cached_issue, h3, h2]

/-- C1 witness: two conflicting writes for id `X` on a fresh cache. -/
theorem permanent_write_once_witness :
    issueA ≠ issueB
    ∧ alookup "X" initCache.permanent_issues = none
    ∧ get_cached_issue (cache_issue 7 "X" issueB (cache_issue 3 "X" issueA initCache)) "X"
        = some (mkCachedIssue 3 "X" issueA)
    ∧ cache_issue 7 "X" issueB (cache_issue 3 "X" issueA initCache)
        = cache_issue 3 "X" issueA initCache :=
  ⟨by decide, rfl,
   permanent_write_once initCache "X" issueA issueB 3 7 (by decide) rfl⟩

/-- C2: session-tier reads.  A read hits exactly when an entry exists whose
timestamp is less than 300 seconds old; a put followed by an immediate get
returns the stored list; a get more than 300 seconds after the put is
absent; a get after `invalidate_session_cache` is absent at any time. -/
theorem session_freshness (s : CacheState) (project_id : String) (now : ℚ) :
    (∀ its, get_session_issues now s project_id = some its ↔
      ∃ e, alookup (sessionKey project_id) s.session_cache = some e ∧
        now - e.timestamp < 300 ∧ its = e.issues)
    ∧ (∀ items,
        get_session_issues now (cache_session_issues now project_id items s)
          project_id = some items)
    ∧ (∀ items later, 300 < later - now →
        get_session_issues later (cache_session_issues now project_id items s)
          project_id = none)
    ∧ (∀ later,
        get_session_issues later (invalidate_session_cache project_id s)
          project_id = none) := by
  refine ⟨?_, ?_, ?_, ?_⟩
  · intro its
    cases h : alookup (sessionKey project_id) s.session_cache with
    | none => simp [get_session_issues_eq, h]
    | some e =>
        by_cases hf : now - e.timestamp < 300
        · simp only [get_session_issues_eq, h, if_pos hf, Option.some.injEq]
          constructor
          · intro hh
            exact ⟨e, rfl, hf, hh.symm⟩
          · rintro ⟨e2, he2, _, rfl⟩
            cases he2
            rfl
        · simp only [get_session_issues_eq, h, if_neg hf]
          constructor
          · intro hh
            exact absurd hh (by simp)
          · rintro ⟨e2, he2, hf2, rfl⟩
            cases he2
            exact absurd hf2 hf
  · intro items
    have hkey : alookup (sessionKey project_id)
        (cache_session_issues now project_id items s).session_cache =
        some { issues := items, timestamp := now } := by
      rw [cache_session_issues_session, alookup_aset_self]
    have hfresh : now - now < 300 := by norm_num
    simp [get_session_issues_eq, hkey, hfresh]
  · intro items later hlate
    have hkey : alookup (sessionKey project_id)
        (cache_session_issues now project_id items s).session_cache =
        some { issues := items, timestamp := now } := by
      rw [cache_session_issues_session, alookup_aset_self]
    have hstale : ¬ later - now < 300 := by linarith
    simp [get_session_issues_eq, hkey, hstale]
  · intro later
    have hkey : alookup (sessionKey project_id)
        (invalidate_session_cache project_id s).session_cache = none := by
      unfold invalidate_session_cache
      exact alookup_adel_self _ _
    simp [get_session_issues_eq, hkey]

/-- C2 witness: put at time 0, read at time 400. -/
theorem session_freshness_witness :
    (300 : ℚ) < 400 - 0
    ∧ get_session_issues 400 (cache_session_issues 0 "P" [doneIssue] initCache) "P"
        = none :=
  ⟨by norm_num,
   (session_freshness initCache "P" 0).2.2.1 [doneIssue] 400 (by norm_num)⟩

/-- C10: after every call to `update_session_history` the stored
`session_count` equals the length of the stored `session_history`,
whatever the previous count was. -/
theorem session_count_matches_history (now : ℚ) (summary : SessionSummary)
    (pd : ProjectData) :
    (update_session_history now summary pd).session_count =
      some (((update_session_history now summary pd).session_history.getD []).length
        : Int) := by
  simp [update_session_history]

/-- C5: milestone selection walks the fixed order setup(10), core(40),
features(75), polish(95), complete(100) and picks the first whose target
strictly exceeds the percentage, with `complete` as fallback; a percentage
equal to a threshold rolls into the next milestone, everything at or above
95 is `complete`, and the function is pure. -/
theorem milestone_selection (p : ℚ) :
    ((determine_current_milestone p).key = "setup" ↔ p < 10)
    ∧ ((determine_current_milestone p).key = "core" ↔ 10 ≤ p ∧ p < 40)
    ∧ ((determine_current_milestone p).key = "features" ↔ 40 ≤ p ∧ p < 75)
    ∧ ((determine_current_milestone p).key = "polish" ↔ 75 ≤ p ∧ p < 95)
    ∧ ((determine_current_milestone p).key = "complete" ↔ 95 ≤ p)
    ∧ (determine_current_milestone 40).key = "features"
    ∧ determine_current_milestone p = determine_current_milestone p := by
  have hkey : ∀ q : ℚ, (determine_current_milestone q).key =
      (if q < 10 then "setup" else if q < 40 then "core" else if q < 75 then "features"
       else if q < 95 then "polish" else "complete") := by
    intro q
    simp only [determine_current_milestone, MILESTONES, selectMilestone, completeFallback]
    split_ifs <;> rfl
  have h40 : (determine_current_milestone 40).key = "features" := by
    rw [hkey]
    norm_num
  refine ⟨?_, ?_, ?_, ?_, ?_, h40, rfl⟩ <;> rw [hkey] <;>
    split_ifs with h1 h2 h3 h4 <;> simp <;>
    first
      | linarith
      | (constructor <;> linarith)
      | (intro hx; linarith)
      | (intro hx hy; linarith)

/-- C6: health classification is the ordered first-match-wins rule set, and
the three concrete sample inputs classify as the spec states. -/
theorem health_rules (p v : ℚ) (e : Int) :
    (determine_health_status p v e = "on_track" ↔ 4 / 5 < v ∧ e < 5 ∧ 20 < p)
    ∧ (determine_health_status p v e = "at_risk" ↔
        ¬(4 / 5 < v ∧ e < 5 ∧ 20 < p) ∧ (3 / 10 < v ∧ e < 10))
    ∧ (determine_health_status p v e = "off_track" ↔
        ¬(4 / 5 < v ∧ e < 5 ∧ 20 < p) ∧ ¬(3 / 10 < v ∧ e < 10))
    ∧ determine_health_status 50 1 0 = "on_track"
    ∧ determine_health_status 50 (1 / 2) 3 = "at_risk"
    ∧ determine_health_status 50 (1 / 10) 20 = "off_track" := by
  refine ⟨?_, ?_, ?_, ?_, ?_, ?_⟩
  · unfold determine_health_status
    split_ifs with h1 h2 <;> simp_all
  · unfold determine_health_status
    split_ifs with h1 h2 <;> simp_all
  · unfold determine_health_status
    split_ifs with h1 h2 <;> simp_all
  · unfold determine_health_status
    norm_num
  · unfold determine_health_status
    norm_num
  · unfold determine_health_status
    norm_num

/-- `update_issue` only records the API call, so it does not touch the
session tier. -/
theorem update_issue_session (now : ℚ) (s : CacheState) :
    (update_issue now s).session_cache = s.session_cache := rfl

/-- C8: after `CachedLinearClient.update_issue` the session entry is NOT
invalidated — a subsequent `get_session_issues` still returns the stale
pre-update list.  The invalidation call in the source is commented out,
contradicting both the method docstring and the printed message. -/
theorem update_issue_keeps_stale_session :
    get_session_issues 0
        (update_issue 0 (cache_session_issues 0 "P" [doneIssue] initCache)) "P"
      = some [doneIssue] := by
  have hkey : alookup (sessionKey "P")
      (update_issue 0 (cache_session_issues 0 "P" [doneIssue] initCache)).session_cache
      = some { issues := [doneIssue], timestamp := 0 } := by
    rw [update_issue_session, cache_session_issues_session, alookup_aset_self]
  have hfresh : (0 : ℚ) - 0 < 300 := by norm_num
  simp [get_session_issues_eq, hkey, hfresh]

/-- C7 counterexample: `get_api_stats` does not prune the window against
the current time.  One call recorded at time 0 is still reported in
`calls_last_hour` when the stats are read at time 5000, although no
timestamp lies strictly within the last 3600 seconds of 5000. -/
theorem stats_stale_window_cex :
    (get_api_stats (track_api_call 0 initCache).2).calls_last_hour = 1
    ∧ ((track_api_call 0 initCache).2.api_call_timestamps.filter
        (fun t => decide ((5000 : ℚ) - t < 3600))).length = 0 := by
  constructor <;> norm_num [get_api_stats, track_api_call, initCache]

/-- C7 (amended): pruning happens on every record.  After `track_api_call`
at time `now`, every timestamp in the window is strictly within the last
3600 seconds of `now`, the returned count and a `get_api_stats` taken at
that same moment both equal the window length, the new call is in the
window, and no fresh timestamp is dropped.  `get_api_stats` itself does not
prune, so its count only reflects the window as of the last record. -/
theorem rate_window_pruned_on_record (s : CacheState) (now : ℚ) :
    (∀ t ∈ (track_api_call now s).2.api_call_timestamps, now - t < 3600)
    ∧ (track_api_call now s).1 = (track_api_call now s).2.api_call_timestamps.length
    ∧ (get_api_stats (track_api_call now s).2).calls_last_hour
        = (track_api_call now s).2.api_call_timestamps.length
    ∧ now ∈ (track_api_call now s).2.api_call_timestamps
    ∧ (∀ t ∈ s.api_call_timestamps, now - t < 3600 →
        t ∈ (track_api_call now s).2.api_call_timestamps) := by
  refine ⟨?_, rfl, rfl, ?_, ?_⟩
  · intro t ht
    simp only [track_api_call, List.mem_filter, decide_eq_true_eq] at ht
    linarith [ht.2]
  · simp only [track_api_call, List.mem_filter, List.mem_append,
      List.mem_singleton, decide_eq_true_eq]
    refine ⟨Or.inr (by simp), by linarith⟩
  · intro t ht hfresh
    simp only [track_api_call, List.mem_filter, List.mem_append,
      List.mem_singleton, decide_eq_true_eq]
    exact ⟨Or.inl ht, by linarith⟩

/-- C7 amended-claim witness: the call recorded at time 0 is in the window
and is fresh relative to the recording time. -/
theorem rate_window_pruned_on_record_witness :
    (0 : ℚ) ∈ (track_api_call 0 initCache).2.api_call_timestamps
    ∧ (0 : ℚ) - 0 < 3600 := by
  have hmem : (0 : ℚ) ∈ (track_api_call 0 initCache).2.api_call_timestamps := by
    norm_num [track_api_call, initCache]
  exact ⟨hmem, (rate_window_pruned_on_record initCache 0).1 0 hmem⟩

/-- Rounding zero gives zero. -/
theorem pyRound_zero (d : Nat) : pyRound d 0 = 0 := by
  norm_num [pyRound, rhe]

/-- A project freshly written by the initializer: its stored
`session_count` is 0. -/
def pdZeroSessions : ProjectData := create_initializer_summary 0 "p1" "proj" 1 [] false

/-- C4 counterexample: with stored `session_count = 0` (exactly what
`create_initializer_summary` writes) and one completed issue, the code
returns velocity 0, while `completed / max(session_count, 1)` would be 1. -/
theorem velocity_zero_sessions_cex :
    pdZeroSessions.session_count = some 0
    ∧ (calculate_progress pdZeroSessions [doneIssue]).velocity = 0
    ∧ ((List.countP isDone [doneIssue] : ℚ) / max (0 : ℚ) 1) = 1
    ∧ (calculate_progress pdZeroSessions [doneIssue]).velocity ≠
        ((List.countP isDone [doneIssue] : ℚ) / max (0 : ℚ) 1) := by
  refine ⟨rfl, ?_, ?_, ?_⟩ <;>
    norm_num [calculate_progress, pdZeroSessions, create_initializer_summary,
      List.countP_cons, isDone, isInProgress, doneIssue, pyRound, rhe]

/-- C4 (amended): `sessions` is `project_data.get("session_count", 1)` and
velocity is `completed / sessions` only when `sessions > 0`; a stored count
of 0 (or less) yields velocity 0 — the `max(n, 1)` guard only takes effect
through the default for a missing key.  The initializer stores
`session_count = 0`, so the zero case is reachable.  ( `calculate_progress`
is a pure function of its inputs, so the stored count is not altered.) -/
theorem velocity_guard (pd : ProjectData) (issues : List Issue) :
    (pd.session_count = none →
      (calculate_progress pd issues).velocity
        = pyRound 2 ((issues.countP isDone : ℚ)))
    ∧ (∀ n : Int, pd.session_count = some n → n ≤ 0 →
        (calculate_progress pd issues).velocity = 0)
    ∧ (∀ n : Int, pd.session_count = some n → 0 < n →
        (calculate_progress pd issues).velocity
          = pyRound 2 ((issues.countP isDone : ℚ) / (n : ℚ)))
    ∧ (∀ (now : ℚ) (pid pname : String) (ti : Int) (ibp : List (String × Int))
        (mc : Bool),
        (create_initializer_summary now pid pname ti ibp mc).session_count
          = some 0) := by
  refine ⟨?_, ?_, ?_, fun _ _ _ _ _ _ => rfl⟩
  · intro h
    simp [calculate_progress, h]
  · intro n hn hle
    have hnpos : ¬ (0 : Int) < n := not_lt.mpr hle
    simp [calculate_progress, hn, hnpos, pyRound_zero]
  · intro n hn hpos
    simp [calculate_progress, hn, hpos]

/-- C4 amended-claim witness: the initializer state has count 0 and yields
velocity 0 with one completed issue. -/
theorem velocity_guard_witness :
    pdZeroSessions.session_count = some 0
    ∧ (0 : Int) ≤ 0
    ∧ (calculate_progress pdZeroSessions [doneIssue]).velocity = 0 :=
  ⟨rfl, le_refl 0,
   (velocity_guard pdZeroSessions [doneIssue]).2.1 0 rfl (le_refl 0)⟩

/-! Monotonicity of the Python rounding through a todo → in-progress →
done transition. -/

theorem rhe_lower (q : ℚ) : ⌊q⌋ ≤ rhe q := by
  unfold rhe
  dsimp only
  split_ifs <;> omega

theorem rhe_upper (q : ℚ) : rhe q ≤ ⌊q⌋ + 1 := by
  unfold rhe
  dsimp only
  split_ifs <;> omega

theorem rhe_mono {x y : ℚ} (h : x ≤ y) : rhe x ≤ rhe y := by
  rcases lt_or_eq_of_le (Int.floor_le_floor h) with hf | hf
  · calc rhe x ≤ ⌊x⌋ + 1 := rhe_upper x
      _ ≤ ⌊y⌋ := by omega
      _ ≤ rhe y := rhe_lower y
  · unfold rhe
    dsimp only
    rw [← hf]
    have hfl : (⌊x⌋ : ℚ) ≤ x := Int.floor_le x
    have hfy : y - (⌊x⌋ : ℚ) = y - (⌊y⌋ : ℚ) := by rw [hf]
    split_ifs <;> first | omega | linarith

theorem pyRound_mono (d : Nat) {x y : ℚ} (h : x ≤ y) :
    pyRound d x ≤ pyRound d y := by
  unfold pyRound
  have hm : rhe (x * 10 ^ d) ≤ rhe (y * 10 ^ d) :=
    rhe_mono (mul_le_mul_of_nonneg_right h (by positivity))
  have hc : ((rhe (x * 10 ^ d) : ℚ)) ≤ (rhe (y * 10 ^ d) : ℚ) := by exact_mod_cast hm
  exact div_le_div_of_nonneg_right hc (by positivity)

theorem isDone_false_of_isInProgress {i : Issue} (h : isInProgress i = true) :
    isDone i = false := by
  unfold isDone isInProgress at *
  rw [beq_iff_eq] at h
  simp [h]

theorem isInProgress_false_of_isDone {i : Issue} (h : isDone i = true) :
    isInProgress i = false := by
  unfold isDone isInProgress at *
  rw [beq_iff_eq] at h
  simp [h]

/-- The progress-percentage field of `calculate_progress`, spelled out. -/
theorem progress_percentage_eq (pd : ProjectData) (issues : List Issue) :
    (calculate_progress pd issues).progress_percentage =
      pyRound 1 (if 0 < ((issues.length : Int)) then
        ((((issues.countP isDone : Nat) : Int) : ℚ)
            + 1 / 4 * (((issues.countP isInProgress : Nat) : Int) : ℚ))
          / (((issues.length : Int)) : ℚ) * 100
      else 0) := rfl

/-- C9: the progress percentage is exactly 0 for an empty item list, and a
single-item transition todo → in-progress or in-progress → done (all other
items fixed) never decreases it, including through the rounding step. -/
theorem progress_monotone (pd : ProjectData) (l1 l2 : List Issue) (a b : Issue)
    (h : (isDone a = false ∧ isInProgress a = false ∧ isInProgress b = true)
        ∨ (isInProgress a = true ∧ isDone b = true)) :
    (calculate_progress pd []).progress_percentage = 0
    ∧ (calculate_progress pd (l1 ++ a :: l2)).progress_percentage ≤
        (calculate_progress pd (l1 ++ b :: l2)).progress_percentage := by
  constructor
  · rw [progress_percentage_eq]
    simp [pyRound_zero]
  · rw [progress_percentage_eq, progress_percentage_eq]
    apply pyRound_mono
    have hlen : (((l1 ++ b :: l2).length : Int)) = (((l1 ++ a :: l2).length : Int)) := by
      simp
    have hposN : 0 < (l1 ++ a :: l2).length := by
      simp only [List.length_append, List.length_cons]
      omega
    have hpos : 0 < (((l1 ++ a :: l2).length : Int)) := by exact_mod_cast hposN
    rw [hlen, if_pos hpos, if_pos hpos]
    have hQpos : (0 : ℚ) < ((((l1 ++ a :: l2).length : Int)) : ℚ) := by
      exact_mod_cast hpos
    apply mul_le_mul_of_nonneg_right _ (by norm_num : (0 : ℚ) ≤ 100)
    rw [div_le_div_right hQpos]
    rcases h with ⟨ha1, ha2, hb⟩ | ⟨ha, hb⟩
    · have hbd : isDone b = false := isDone_false_of_isInProgress hb
      simp only [List.countP_append, List.countP_cons, ha1, ha2, hb, hbd]
      push_cast
      linarith
    · have had : isDone a = false := by
        cases hda : isDone a with
        | false => rfl
        | true => rw [isInProgress_false_of_isDone hda] at ha; cases ha
      have hbp : isInProgress b = false := isInProgress_false_of_isDone hb
      simp only [List.countP_append, List.countP_cons, ha, hb, had, hbp]
      push_cast
      linarith

/-- C9 witness: a one-item list moving from Todo to In Progress. -/
theorem progress_monotone_witness :
    (isDone todoIssue = false ∧ isInProgress todoIssue = false
      ∧ isInProgress inProgressIssue = true)
    ∧ (calculate_progress pdZeroSessions []).progress_percentage = 0
    ∧ (calculate_progress pdZeroSessions ([] ++ todoIssue :: [])).progress_percentage ≤
        (calculate_progress pdZeroSessions
          ([] ++ inProgressIssue :: [])).progress_percentage := by
  have hmain := progress_monotone pdZeroSessions [] [] todoIssue inProgressIssue
    (Or.inl ⟨rfl, rfl, rfl⟩)
  exact ⟨⟨rfl, rfl, rfl⟩, hmain.1, hmain.2⟩

/-! Reachability of cache states through the `LinearCache` operations, and
the trickle-population invariant of the session tier. -/

/-- Cache states reachable from a fresh cache through the mutating
`LinearCache` operations (reads do not mutate). -/
inductive CacheReachable : CacheState → Prop
  | init : CacheReachable initCache
  | track (now : ℚ) (s : CacheState) :
      CacheReachable s → CacheReachable (track_api_call now s).2
  | put_issue (now : ℚ) (issue_id : String) (d : Issue) (s : CacheState) :
      CacheReachable s → CacheReachable (cache_issue now issue_id d s)
  | put_session (now : ℚ) (pid : String) (items : List Issue) (s : CacheState) :
      CacheReachable s → CacheReachable (cache_session_issues now pid items s)
  | invalidate (pid : String) (s : CacheState) :
      CacheReachable s → CacheReachable (invalidate_session_cache pid s)

/-- Every session-tier entry only lists items whose truthy id is present in
the permanent tier. -/
def TrickledInv (s : CacheState) : Prop :=
  ∀ k e, alookup k s.session_cache = some e →
    ∀ it ∈ e.issues, ∀ i, it.id = some i → i ≠ "" →
      (alookup i s.permanent_issues).isSome = true

theorem cache_issue_perm_mono {s : CacheState} {i : String} (now : ℚ)
    (iid : String) (d : Issue)
    (h : (alookup i s.permanent_issues).isSome = true) :
    (alookup i (cache_issue now iid d s).permanent_issues).isSome = true := by
  unfold cache_issue
  split
  · exact h
  · by_cases hi : iid = i <;> simp [alookup, hi, h]

theorem cache_issue_perm_self (now : ℚ) (iid : String) (d : Issue) (s : CacheState) :
    (alookup iid (cache_issue now iid d s).permanent_issues).isSome = true := by
  unfold cache_issue
  split
  · assumption
  · simp [alookup]

theorem cacheIssueStep_perm_mono {s : CacheState} {i : String} (now : ℚ) (j : Issue)
    (h : (alookup i s.permanent_issues).isSome = true) :
    (alookup i (cacheIssueStep now s j).permanent_issues).isSome = true := by
  unfold cacheIssueStep
  cases j.id with
  | none => exact h
  | some jid =>
      by_cases hj : jid = "" <;> simp [hj, cache_issue_perm_mono, h]

theorem trickle_perm_mono {i : String} (now : ℚ) (items : List Issue)
    (s : CacheState) (h : (alookup i s.permanent_issues).isSome = true) :
    (alookup i ((items.foldl (cacheIssueStep now) s)).permanent_issues).isSome
      = true := by
  induction items generalizing s with
  | nil => exact h
  | cons j rest ih =>
      simp only [List.foldl_cons]
      exact ih _ (cacheIssueStep_perm_mono now j h)

theorem trickle_covers (now : ℚ) (items : List Issue) (s : CacheState) :
    ∀ it ∈ items, ∀ i, it.id = some i → i ≠ "" →
      (alookup i ((items.foldl (cacheIssueStep now) s)).permanent_issues).isSome
        = true := by
  induction items generalizing s with
  | nil => intro it hmem; cases hmem
  | cons j rest ih =>
      intro it hmem i hid hne
      simp only [List.foldl_cons]
      rcases List.mem_cons.mp hmem with heq | hmem2
      · subst heq
        apply trickle_perm_mono
        unfold cacheIssueStep
        rw [hid]
        simp only [hne, if_pos, ne_eq, not_false_iff]
        exact cache_issue_perm_self now i it s
      · exact ih _ it hmem2 i hid hne

theorem cache_session_issues_perm (now : ℚ) (pid : String) (items : List Issue)
    (s : CacheState) :
    cache_session_issues now pid items s =
      items.foldl (cacheIssueStep now)
        { s with session_cache :=
            (aset (sessionKey pid) (SessionEntry.mk items now) s.session_cache) } := rfl

theorem trickledInv_reachable (s : CacheState) (hs : CacheReachable s) :
    TrickledInv s := by
  induction hs with
  | init =>
      intro k e hk
      cases hk
  | track now s hsR ih =>
      intro k e hk it hmem i hid hne
      exact ih k e hk it hmem i hid hne
  | put_issue now iid d s hsR ih =>
      intro k e hk it hmem i hid hne
      have hk2 : alookup k s.session_cache = some e := by
        rwa [cache_issue_session] at hk
      exact cache_issue_perm_mono now iid d (ih k e hk2 it hmem i hid hne)
  | put_session now pid items s hsR ih =>
      intro k e hk it hmem i hid hne
      rw [cache_session_issues_session] at hk
      by_cases hkey : sessionKey pid = k
      · subst hkey
        rw [alookup_aset_self] at hk
        cases hk
        rw [cache_session_issues_perm]
        exact trickle_covers now items _ it hmem i hid hne
      · rw [alookup_aset_ne _ _ hkey] at hk
        rw [cache_session_issues_perm]
        exact trickle_perm_mono now items _ (ih k e hk it hmem i hid hne)
  | invalidate pid s hsR ih =>
      intro k e hk it hmem i hid hne
      have hk2 : alookup k s.session_cache = some e := by
        unfold invalidate_session_cache adel at hk
        by_cases hkey : sessionKey pid = k
        · rw [← hkey] at hk
          rw [show (List.filter (fun p => decide (p.1 ≠ sessionKey pid))
                s.session_cache) = adel (sessionKey pid) s.session_cache from rfl,
              alookup_adel_self] at hk
          cases hk
        · rwa [show (List.filter (fun p => decide (p.1 ≠ sessionKey pid))
                s.session_cache) = adel (sessionKey pid) s.session_cache from rfl,
              show adel (sessionKey pid) s.session_cache
                = List.filter (fun p => decide (p.1 ≠ sessionKey pid))
                    s.session_cache from rfl,
              alookup_filter_ne hkey] at hk
      exact ih k e hk2 it hmem i hid hne

/-- C3 counterexample: a session hit can return an item whose id is the
empty string without that id ever entering the permanent tier (the trickle
loop skips falsy ids), and the read itself inserts nothing. -/
theorem session_hit_trickled_cex :
    get_session_issues 0 (cache_session_issues 0 "P" [emptyIdIssue] initCache) "P"
      = some [emptyIdIssue]
    ∧ emptyIdIssue.id = some ""
    ∧ get_cached_issue (cache_session_issues 0 "P" [emptyIdIssue] initCache) ""
      = none := by
  refine ⟨?_, rfl, ?_⟩ <;>
    norm_num [get_session_issues, cache_session_issues, cacheIssueStep,
      get_cached_issue, aset, alookup, sessionKey, initCache, emptyIdIssue]

/-- C3 (amended): the permanent tier is populated at put-time
(`cache_session_issues`), not by the read; consequently, in every state
reachable through the cache operations, a session hit only returns lists
whose items with a truthy (non-empty) id are all present in the permanent
tier.  Items whose id key is missing or the empty string are skipped by the
trickle loop. -/
theorem session_hit_trickled (s : CacheState) (hs : CacheReachable s)
    (now : ℚ) (project_id : String) (items : List Issue)
    (hhit : get_session_issues now s project_id = some items) :
    ∀ it ∈ items, ∀ i, it.id = some i → i ≠ "" →
      (get_cached_issue s i).isSome = true := by
  intro it hmem i hid hne
  rw [get_session_issues_eq] at hhit
  cases hk : alookup (sessionKey project_id) s.session_cache with
  | none => simp only [hk] at hhit; cases hhit
  | some e =>
      simp only [hk] at hhit
      by_cases hf : now - e.timestamp < 300
      · rw [if_pos hf] at hhit
        have hitems : items = e.issues := (Option.some_injective _ hhit).symm
        subst hitems
        exact trickledInv_reachable s hs (sessionKey project_id) e hk it hmem i hid hne
      · rw [if_neg hf] at hhit
        cases hhit

/-- A state with one fresh session entry, used as the C3 witness state. -/
def sampleHitState : CacheState := cache_session_issues 0 "P" [doneIssue] initCache

/-- C3 amended-claim witness: a hit on the sample state returns a list
whose item with id `a` is in the permanent tier. -/
theorem session_hit_trickled_witness :
    CacheReachable sampleHitState
    ∧ get_session_issues 0 sampleHitState "P" = some [doneIssue]
    ∧ doneIssue ∈ [doneIssue]
    ∧ doneIssue.id = some "a"
    ∧ "a" ≠ ""
    ∧ (get_cached_issue sampleHitState "a").isSome = true := by
  have hreach : CacheReachable sampleHitState :=
    CacheReachable.put_session 0 "P" [doneIssue] initCache CacheReachable.init
  have hhit : get_session_issues 0 sampleHitState "P" = some [doneIssue] := by
    norm_num [get_session_issues, sampleHitState, cache_session_issues,
      cacheIssueStep, cache_issue, aset, alookup, sessionKey, initCache, doneIssue]
  refine ⟨hreach, hhit, List.mem_singleton.mpr rfl, rfl, by decide, ?_⟩
  exact session_hit_trickled sampleHitState hreach 0 "P" [doneIssue] hhit doneIssue
    (List.mem_singleton.mpr rfl) "a" rfl (by decide)
